import Mathlib

/-
Verification development for the python-photobucket client library.

This file gives a shallow embedding of the request-building, signing and
redirect-resolution logic of `photobucket/__init__.py` (class `Base`, the
helper `remove_empty`, and `Base.clean_identifier`), and settles the claims
of the specification against it.

Modelling conventions:
* Python `None` values inside a parameter dictionary are `Value.null`;
  a parameter dictionary is an association list (Python dicts have unique
  keys, which hypotheses record where proofs need it).
* The external HTTP transport (the `requests` module) is modelled by a list
  of outcomes, one per physical network call, plus the list of attribute
  names that are valid request methods (`getattr(requests, method.lower())`
  succeeds exactly on those).  `raise_for_status` raising `HTTPError` is
  the `TOutcome.httpError` outcome.
* Response bodies are modelled by their JSON document (`json.loads` of the
  raw body is the identity in this representation); `parse_response` with a
  non-`json` format returns the raw body, on which the subsequent key
  subscript raises `TypeError`, modelled by `ReqResult.exn`.
* The oauth2 library is modelled at its documented interface:
  `Token(key, secret)` raises `ValueError` iff `key` or `secret` is `None`;
  the HMAC-SHA1 signature base string is determined by the request method,
  `normalized_url` and the parameter set (`signature_base_inputs`).
* In-place mutation of the caller-supplied params dict (`setdefault`,
  `params[...] = ...`, `remove_empty`) is modelled by `CallResult.finalParams`,
  the value the caller's dictionary holds after the call returns; per
  line 125 (`params = params or dict()`) an empty caller dict is falsy and
  is replaced by a fresh dict, so it is never mutated.
-/

/-- Python values appearing in a request parameter dictionary:
`None`, a string, or a list of strings (used for identifiers). -/
inductive Value where
  | null
  | str (s : String)
  | lst (l : List String)
deriving DecidableEq, Repr

/-- Dictionary lookup (`d[k]` / `k in d`): the value of the first entry
with the given key, if any. -/
def dictGet : List (String × Value) → String → Option Value
  | [], _ => none
  | (k2, v) :: rest, k => if k2 = k then some v else dictGet rest k

/-- `k in d` for a Python dict. -/
def hasKey (ps : List (String × Value)) (k : String) : Bool :=
  (dictGet ps k).isSome

/-- Dictionary item assignment `d[k] = v`: every entry with the given key
gets the new value (a Python dict holds at most one such entry). -/
def setKey : List (String × Value) → String → Value → List (String × Value)
  | [], _, _ => []
  | (k2, v2) :: rest, k, v =>
      if k2 = k then (k2, v) :: setKey rest k v else (k2, v2) :: setKey rest k v

/-- `d.setdefault(k, v)`: insert `(k, v)` at the end iff `k` is absent. -/
def setdefault (ps : List (String × Value)) (k : String) (v : Value) :
    List (String × Value) :=
  if hasKey ps k then ps else ps ++ [(k, v)]

/-- Embeds `remove_empty` (module-level helper): deletes every key whose
value is `None` and returns the (same, mutated) dictionary. -/
def remove_empty : List (String × Value) → List (String × Value)
  | [] => []
  | (k, v) :: rest =>
      if v = Value.null then remove_empty rest else (k, v) :: remove_empty rest

/-- Embeds `Base.clean_identifier`: a list is joined with the literal
string `%2F`; anything else is returned unchanged. -/
def clean_identifier (v : Value) : Value :=
  match v with
  | Value.lst l => Value.str (String.intercalate "%2F" l)
  | v => v

/-- The parameter pipeline of `make_request` (lines 130-134 of the source):
default `format=json`, clean the `id` entry if present, then drop `None`
values.  Because all three Python operations mutate the dict in place, the
result is also the value of the caller's dictionary after the call. -/
def process_params (ps : List (String × Value)) : List (String × Value) :=
  let p1 := setdefault ps "format" (Value.str "json")
  let p2 :=
    match dictGet p1 "id" with
    | some v => setKey p1 "id" (clean_identifier v)
    | none => p1
  remove_empty p2

/-- Auth constant `NOT_REQUIRED` of the source. -/
def NOT_REQUIRED : Nat := 0

/-- Auth constant `REQUIRED` of the source. -/
def REQUIRED : Nat := 1

/-- Auth constant `OPTIONAL` of the source. -/
def OPTIONAL : Nat := 2

/-- Status code constant `REDIRECT` of the source. -/
def REDIRECT : Nat := 301

/-- `Base.DOMAIN`, the canonical API host. -/
def DOMAIN : String := "api.photobucket.com"

/-- Python `a or b` for an optional string `a`: `b` when `a` is `None` or
empty (falsy), else `a`. -/
def pyOr (a : Option String) (b : String) : String :=
  match a with
  | some s => if s = "" then b else s
  | none => b

/-- ASCII `str.lower`, as applied to HTTP method names. -/
def pyLower (s : String) : String :=
  String.mk (s.data.map Char.toLower)

/-- A JSON document, as produced by `json.loads` on a response body. -/
inductive Json where
  | null
  | str (s : String)
  | num (n : Int)
  | bool (b : Bool)
  | arr (xs : List Json)
  | obj (fields : List (String × Json))

/-- Lookup inside a JSON object's field list. -/
def jsonLookup : List (String × Json) → String → Option Json
  | [], _ => none
  | (k2, v) :: rest, k => if k2 = k then some v else jsonLookup rest k

/-- Python subscript `j[k]` on a decoded JSON value: succeeds only on an
object that has the key (otherwise `KeyError`/`TypeError`). -/
def jsonGet (j : Json) (k : String) : Option Json :=
  match j with
  | Json.obj fields => jsonLookup fields k
  | _ => none

/-- Leftmost split of a character list at the two-character separator `//`
(the separator of `str.split` at line 183 of the source): returns the part
before the first occurrence and the part after it, or `none` when `//` does
not occur. -/
def splitDD : List Char → Option (List Char × List Char)
  | [] => none
  | c :: cs =>
      if c = '/' ∧ cs.head? = some '/' then some ([], cs.tail)
      else
        match splitDD cs with
        | some pr => some (c :: pr.1, pr.2)
        | none => none

/-- Python `s.split('//')[1]`: the segment between the first and second
occurrence of `//` (the rest of the string when `//` occurs only once),
`none` when `//` does not occur at all (`IndexError`). -/
def splitDDIndex1 (s : String) : Option String :=
  match splitDD s.data with
  | none => none
  | some pr =>
      match splitDD pr.2 with
      | none => some (String.mk pr.2)
      | some pr2 => some (String.mk pr2.1)

/-- The subdomain extraction of the 301 branch (line 183):
`content['content']['subdomain'].split('//')[1]`, with each Python failure
mode reported as the exception it raises. -/
def extract_subdomain (content : Json) : Except String String :=
  match jsonGet content "content" with
  | none => Except.error "TypeError or KeyError"
  | some c =>
    match jsonGet c "subdomain" with
    | none => Except.error "TypeError or KeyError"
    | some sd =>
      match sd with
      | Json.str s =>
        match splitDDIndex1 s with
        | none => Except.error "IndexError"
        | some h => Except.ok h
      | _ => Except.error "AttributeError"

/-- Lines 181-183 of the source: look up `params['format']`
(`KeyError` when absent), parse the body (`parse_response`: `json.loads`
for format `json`, the raw string otherwise — subscripting the raw string
raises `TypeError`), then extract the corrected subdomain. -/
def redirect_host (params : List (String × Value)) (content : Json) :
    Except String String :=
  match dictGet params "format" with
  | none => Except.error "KeyError"
  | some fmt =>
    if fmt = Value.str "json" then extract_subdomain content
    else Except.error "TypeError"

/-- The state of a `Base` (or subclass) instance: constructor arguments
plus the per-class `URI` constant. -/
structure Client where
  key : String
  secret : String
  token : Option String
  token_secret : Option String
  subdomain : String
  URI : String
deriving DecidableEq, Repr

/-- Embeds `Base.__init__`: the subdomain defaults to `DOMAIN` when the
argument is `None` or empty (Python `or`). -/
def Base_init (key secret : String) (token token_secret : Option String)
    (subdomain : Option String) (uri : String) : Client :=
  { key := key, secret := secret, token := token, token_secret := token_secret,
    subdomain := pyOr subdomain DOMAIN, URI := uri }

/-- An HTTP response as seen through the `requests` library: status code
and body (the body represented by its JSON document). -/
structure HttpResponse where
  status_code : Nat
  content : Json

/-- What the transport does for one physical network call: return normally,
or raise `HTTPError` from `raise_for_status` carrying the response. -/
inductive TOutcome where
  | success (resp : HttpResponse)
  | httpError (resp : HttpResponse)

/-- `True` exactly for the outcome the 301 branch handles: an `HTTPError`
whose response has status code `REDIRECT`. -/
def isRedirectErr (o : TOutcome) : Bool :=
  match o with
  | TOutcome.httpError r => r.status_code == REDIRECT
  | TOutcome.success _ => false

/-- The signed request handed to the transport: the targeted URL, the
`normalized_url` override used for the signature base string, the
parameter set, body, and the `allow_redirects` flag. -/
structure OAuthReq where
  method : String
  url : String
  normalized_url : String
  parameters : List (String × Value)
  body : String
  allow_redirects : Bool
deriving DecidableEq, Repr

/-- The request-determined inputs of the OAuth 1.0a HMAC-SHA1 signature
base string (method, signed URL, parameter set); the oauth2 library builds
the base string from exactly these plus its own nonce/timestamp. -/
def signature_base_inputs (r : OAuthReq) :
    String × String × List (String × Value) :=
  (r.method, r.normalized_url, r.parameters)

/-- Lines 148-164 of the source: compose `req_uri`, pick the target host
and `allow_redirects` from the `silo` flag, and force `normalized_url` to
the canonical domain. -/
def build_req (self : Client) (url : String) (base_uri : Option String)
    (params : List (String × Value)) (method : String) (silo : Bool)
    (body : String) : OAuthReq :=
  let req_uri := pyOr base_uri self.URI ++ url
  { method := method,
    url := if silo then "http://" ++ self.subdomain ++ req_uri
           else "http://" ++ DOMAIN ++ req_uri,
    normalized_url := "http://" ++ DOMAIN ++ req_uri,
    parameters := params,
    body := body,
    allow_redirects := !silo }

/-- How one call to `make_request` ends. -/
inductive ReqResult where
  | ok (resp : HttpResponse)
  | apiError (msg : String)
  | pbError (resp : HttpResponse)
  | exn (msg : String)
  | noResponse

/-- `True` iff the result is a raised `PhotobucketAPIError`. -/
def ReqResult.isApiError (r : ReqResult) : Bool :=
  match r with
  | ReqResult.apiError _ => true
  | _ => false

/-- The observable effect of one `make_request` call: its result, the
instance state afterwards, the physical requests dispatched (in order),
and the value of the caller's params dictionary afterwards. -/
structure CallResult where
  result : ReqResult
  state : Client
  issued : List OAuthReq
  finalParams : List (String × Value)

/-- Embeds `Base.make_request` (lines 108-188 of the source).

Control flow, in source order: `params = params or dict()` (line 125) —
an empty (falsy) caller mapping is replaced by a fresh dict, so the
in-place processing reaches the caller's mapping only when it is
nonempty, which `finalParams` (the caller's mapping after the call)
records; process the params in place; build the oauth token
(`PhotobucketAPIError` when `auth == REQUIRED` and the token pair cannot
be built — before any network call); compose the URI and sign against the
canonical domain; dispatch (`getattr` on an unrecognized method raises
`AttributeError`, re-raised as `PhotobucketAPIError`, with no network
call); on an `HTTPError` with status `REDIRECT`, store the corrected
subdomain and recurse with identical arguments (passing the same — fresh
or caller-owned — dict object, so the recursive call's `finalParams`
stands for that object's final value); on any other `HTTPError`, raise
`PhotobucketError` carrying the response.

The `transport` list supplies one outcome per physical call;
`ReqResult.noResponse` marks a run cut off by an exhausted list.
(The instance, the params dictionary and the remaining transport vary
across the 301 recursion, so they are the trailing arguments.) -/
def make_request (url : String) (base_uri : Option String) (auth : Nat)
    (method : String) (silo : Bool) (body : String)
    (recognized : List String) :
    Client → List (String × Value) → List TOutcome → CallResult
  | self, params0, transport =>
    let params := process_params params0
    let callerParams := if params0.isEmpty then params0 else params
    if auth = REQUIRED ∧ (self.token = none ∨ self.token_secret = none) then
      ⟨ReqResult.apiError "Token and Token secret must be set.", self, [],
        callerParams⟩
    else
      let req := build_req self url base_uri params method silo body
      if recognized.contains (pyLower method) then
        match transport with
        | [] => ⟨ReqResult.noResponse, self, [req], callerParams⟩
        | TOutcome.success resp :: _ =>
          ⟨ReqResult.ok resp, self, [req], callerParams⟩
        | TOutcome.httpError resp :: rest =>
          if resp.status_code = REDIRECT then
            match redirect_host params resp.content with
            | Except.error m => ⟨ReqResult.exn m, self, [req], callerParams⟩
            | Except.ok host =>
              let r := make_request url base_uri auth method silo body recognized
                { self with subdomain := host } params rest
              ⟨r.result, r.state, req :: r.issued,
                if params0.isEmpty then params0 else r.finalParams⟩
          else ⟨ReqResult.pbError resp, self, [req], callerParams⟩
      else ⟨ReqResult.apiError "Invalid Http method", self, [], callerParams⟩

/-- The request-method attributes of the `requests` module (the transport
dependency): `getattr(requests, m)` yields a request function exactly for
these names. -/
def requests_methods : List String :=
  ["get", "post", "put", "delete", "head", "patch", "options"]

/-! ## Unfolding lemmas for `make_request`

The equation compiler's automatic equations are unusable for this recursion
shape, so each transport-constructor case is stated once, by `rfl`. -/

theorem make_request_nil (url : String) (base_uri : Option String) (auth : Nat)
    (method : String) (silo : Bool) (body : String) (recognized : List String)
    (self : Client) (params0 : List (String × Value)) :
    make_request url base_uri auth method silo body recognized self params0 [] =
      (if auth = REQUIRED ∧ (self.token = none ∨ self.token_secret = none) then
        ⟨ReqResult.apiError "Token and Token secret must be set.", self, [],
          if params0.isEmpty then params0 else process_params params0⟩
      else if recognized.contains (pyLower method) then
        ⟨ReqResult.noResponse, self,
          [build_req self url base_uri (process_params params0) method silo body],
          if params0.isEmpty then params0 else process_params params0⟩
      else ⟨ReqResult.apiError "Invalid Http method", self, [],
        if params0.isEmpty then params0 else process_params params0⟩) := rfl

theorem make_request_success (url : String) (base_uri : Option String) (auth : Nat)
    (method : String) (silo : Bool) (body : String) (recognized : List String)
    (self : Client) (params0 : List (String × Value)) (resp : HttpResponse)
    (rest : List TOutcome) :
    make_request url base_uri auth method silo body recognized self params0
        (TOutcome.success resp :: rest) =
      (if auth = REQUIRED ∧ (self.token = none ∨ self.token_secret = none) then
        ⟨ReqResult.apiError "Token and Token secret must be set.", self, [],
          if params0.isEmpty then params0 else process_params params0⟩
      else if recognized.contains (pyLower method) then
        ⟨ReqResult.ok resp, self,
          [build_req self url base_uri (process_params params0) method silo body],
          if params0.isEmpty then params0 else process_params params0⟩
      else ⟨ReqResult.apiError "Invalid Http method", self, [],
        if params0.isEmpty then params0 else process_params params0⟩) := rfl

theorem make_request_httpError (url : String) (base_uri : Option String) (auth : Nat)
    (method : String) (silo : Bool) (body : String) (recognized : List String)
    (self : Client) (params0 : List (String × Value)) (resp : HttpResponse)
    (rest : List TOutcome) :
    make_request url base_uri auth method silo body recognized self params0
        (TOutcome.httpError resp :: rest) =
      (if auth = REQUIRED ∧ (self.token = none ∨ self.token_secret = none) then
        ⟨ReqResult.apiError "Token and Token secret must be set.", self, [],
          if params0.isEmpty then params0 else process_params params0⟩
      else if recognized.contains (pyLower method) then
        (if resp.status_code = REDIRECT then
          match redirect_host (process_params params0) resp.content with
          | Except.error m =>
            ⟨ReqResult.exn m, self,
              [build_req self url base_uri (process_params params0) method silo body],
              if params0.isEmpty then params0 else process_params params0⟩
          | Except.ok host =>
            let r := make_request url base_uri auth method silo body recognized
              { self with subdomain := host } (process_params params0) rest
            ⟨r.result, r.state,
              build_req self url base_uri (process_params params0) method silo body
                :: r.issued,
              if params0.isEmpty then params0 else r.finalParams⟩
        else
          ⟨ReqResult.pbError resp, self,
            [build_req self url base_uri (process_params params0) method silo body],
            if params0.isEmpty then params0 else process_params params0⟩)
      else ⟨ReqResult.apiError "Invalid Http method", self, [],
        if params0.isEmpty then params0 else process_params params0⟩) := rfl

/-! ## Association-list lemmas for the parameter dictionary -/

theorem dictGet_eq_none_of_not_mem (ps : List (String × Value)) (k : String)
    (h : k ∉ ps.map Prod.fst) : dictGet ps k = none := by
  induction ps with
  | nil => rfl
  | cons kv rest ih =>
    obtain ⟨k2, v⟩ := kv
    simp only [List.map_cons, List.mem_cons, not_or] at h
    simp only [dictGet, if_neg (fun hh : k2 = k => h.1 hh.symm)]
    exact ih h.2

theorem mem_of_dictGet (ps : List (String × Value)) (k : String) (v : Value)
    (h : dictGet ps k = some v) : (k, v) ∈ ps := by
  induction ps with
  | nil => simp [dictGet] at h
  | cons kv rest ih =>
    obtain ⟨k2, v2⟩ := kv
    simp only [dictGet] at h
    by_cases hk : k2 = k
    · rw [if_pos hk] at h
      subst hk
      simp only [Option.some.injEq] at h
      subst h
      exact List.mem_cons_self _ _
    · rw [if_neg hk] at h
      exact List.mem_cons_of_mem _ (ih h)

theorem hasKey_of_mem (ps : List (String × Value)) (k : String) (v : Value)
    (h : (k, v) ∈ ps) : hasKey ps k = true := by
  induction ps with
  | nil => simp at h
  | cons kv rest ih =>
    obtain ⟨k2, v2⟩ := kv
    by_cases hk : k2 = k
    · simp [hasKey, dictGet, hk]
    · simp only [hasKey, dictGet, if_neg hk]
      rcases List.mem_cons.mp h with h1 | h2
      · exact absurd (congrArg Prod.fst h1).symm hk
      · exact ih h2

theorem not_mem_keys_of_not_hasKey (ps : List (String × Value)) (k : String)
    (h : hasKey ps k = false) : k ∉ ps.map Prod.fst := by
  intro hmem
  obtain ⟨e, he, hek⟩ := List.mem_map.mp hmem
  obtain ⟨k1, v1⟩ := e
  simp only at hek
  subst hek
  rw [hasKey_of_mem ps _ v1 he] at h
  simp at h

theorem dictGet_append_left (ps qs : List (String × Value)) (k : String)
    (h : (dictGet ps k).isSome) : dictGet (ps ++ qs) k = dictGet ps k := by
  induction ps with
  | nil => simp [dictGet] at h
  | cons kv rest ih =>
    obtain ⟨k2, v⟩ := kv
    by_cases hk : k2 = k
    · simp [dictGet, hk]
    · simp only [List.cons_append, dictGet, if_neg hk] at h ⊢
      exact ih h

theorem dictGet_append_right (ps qs : List (String × Value)) (k : String)
    (h : dictGet ps k = none) : dictGet (ps ++ qs) k = dictGet qs k := by
  induction ps with
  | nil => rfl
  | cons kv rest ih =>
    obtain ⟨k2, v⟩ := kv
    by_cases hk : k2 = k
    · simp [dictGet, hk] at h
    · simp only [List.cons_append, dictGet, if_neg hk] at h ⊢
      exact ih h

theorem keys_setKey (ps : List (String × Value)) (k0 : String) (v : Value) :
    (setKey ps k0 v).map Prod.fst = ps.map Prod.fst := by
  induction ps with
  | nil => rfl
  | cons kv rest ih =>
    obtain ⟨k2, v2⟩ := kv
    by_cases hk : k2 = k0
    · simp [setKey, hk, ih]
    · simp [setKey, hk, ih]

theorem dictGet_setKey_other (ps : List (String × Value)) (k k0 : String)
    (v : Value) (h : k ≠ k0) : dictGet (setKey ps k0 v) k = dictGet ps k := by
  induction ps with
  | nil => rfl
  | cons kv rest ih =>
    obtain ⟨k2, v2⟩ := kv
    by_cases hk : k2 = k0
    · have hne : ¬(k2 = k) := fun hh => h (hh.symm.trans hk)
      rw [setKey, if_pos hk, dictGet, if_neg hne, dictGet, if_neg hne]
      exact ih
    · rw [setKey, if_neg hk, dictGet, dictGet]
      by_cases hq : k2 = k
      · rw [if_pos hq, if_pos hq]
      · rw [if_neg hq, if_neg hq]
        exact ih

theorem dictGet_setKey_self (ps : List (String × Value)) (k : String) (v : Value) :
    dictGet (setKey ps k v) k = (dictGet ps k).map fun _ => v := by
  induction ps with
  | nil => rfl
  | cons kv rest ih =>
    obtain ⟨k2, v2⟩ := kv
    by_cases hk : k2 = k
    · simp [setKey, hk, dictGet]
    · simp only [setKey, if_neg hk, dictGet, if_neg hk]
      exact ih

theorem mem_setKey (ps : List (String × Value)) (k : String) (v : Value)
    (e : String × Value) (h : e ∈ setKey ps k v) :
    (e.1 = k ∧ e.2 = v) ∨ (e ∈ ps ∧ e.1 ≠ k) := by
  induction ps with
  | nil => simp [setKey] at h
  | cons kv rest ih =>
    obtain ⟨k2, v2⟩ := kv
    by_cases hk : k2 = k
    · rw [setKey, if_pos hk] at h
      rcases List.mem_cons.mp h with h1 | h2
      · left
        rw [h1]
        exact ⟨hk, rfl⟩
      · rcases ih h2 with ha | hb
        · exact Or.inl ha
        · exact Or.inr ⟨List.mem_cons_of_mem _ hb.1, hb.2⟩
    · rw [setKey, if_neg hk] at h
      rcases List.mem_cons.mp h with h1 | h2
      · right
        rw [h1]
        exact ⟨List.mem_cons_self _ _, hk⟩
      · rcases ih h2 with ha | hb
        · exact Or.inl ha
        · exact Or.inr ⟨List.mem_cons_of_mem _ hb.1, hb.2⟩

theorem setKey_eq_self (ps : List (String × Value)) (k : String) (v : Value)
    (h : ∀ e ∈ ps, e.1 = k → e.2 = v) : setKey ps k v = ps := by
  induction ps with
  | nil => rfl
  | cons kv rest ih =>
    obtain ⟨k2, v2⟩ := kv
    by_cases hk : k2 = k
    · rw [setKey, if_pos hk]
      have hv : v2 = v := h (k2, v2) (List.mem_cons_self _ _) hk
      rw [hv, ih fun e he => h e (List.mem_cons_of_mem _ he)]
    · rw [setKey, if_neg hk, ih fun e he => h e (List.mem_cons_of_mem _ he)]

theorem mem_remove_empty (e : String × Value) :
    ∀ ps, e ∈ remove_empty ps → e ∈ ps ∧ e.2 ≠ Value.null := by
  intro ps
  induction ps with
  | nil => intro h; simp [remove_empty] at h
  | cons kv rest ih =>
    obtain ⟨k2, v2⟩ := kv
    intro h
    by_cases hn : v2 = Value.null
    · rw [remove_empty, if_pos hn] at h
      exact ⟨List.mem_cons_of_mem _ (ih h).1, (ih h).2⟩
    · rw [remove_empty, if_neg hn] at h
      rcases List.mem_cons.mp h with h1 | h2
      · subst h1
        exact ⟨List.mem_cons_self _ _, hn⟩
      · exact ⟨List.mem_cons_of_mem _ (ih h2).1, (ih h2).2⟩

theorem remove_empty_eq_self (ps : List (String × Value))
    (h : ∀ e ∈ ps, e.2 ≠ Value.null) : remove_empty ps = ps := by
  induction ps with
  | nil => rfl
  | cons kv rest ih =>
    obtain ⟨k2, v2⟩ := kv
    have hn : v2 ≠ Value.null := h (k2, v2) (List.mem_cons_self _ _)
    rw [remove_empty, if_neg hn, ih fun e he => h e (List.mem_cons_of_mem _ he)]

theorem remove_empty_no_null (ps : List (String × Value)) :
    ∀ e ∈ remove_empty ps, e.2 ≠ Value.null :=
  fun e he => (mem_remove_empty e ps he).2

theorem hasKey_remove_empty_mono (ps : List (String × Value)) (k : String)
    (h : hasKey ps k = false) : hasKey (remove_empty ps) k = false := by
  cases hc : dictGet (remove_empty ps) k with
  | none => simp [hasKey, hc]
  | some v =>
    have hm := mem_of_dictGet _ _ _ hc
    rw [hasKey_of_mem ps k v (mem_remove_empty (k, v) ps hm).1] at h
    simp at h

theorem dictGet_remove_empty_of_ne_null (k : String) (v : Value)
    (hn : v ≠ Value.null) :
    ∀ ps, dictGet ps k = some v → dictGet (remove_empty ps) k = some v := by
  intro ps
  induction ps with
  | nil => intro hv; simp [dictGet] at hv
  | cons kv rest ih =>
    obtain ⟨k2, v2⟩ := kv
    intro hv
    by_cases hk : k2 = k
    · rw [dictGet, if_pos hk] at hv
      injection hv with hv
      subst hv
      rw [remove_empty, if_neg hn, dictGet, if_pos hk]
    · rw [dictGet, if_neg hk] at hv
      by_cases h2 : v2 = Value.null
      · rw [remove_empty, if_pos h2]
        exact ih hv
      · rw [remove_empty, if_neg h2, dictGet, if_neg hk]
        exact ih hv

theorem dictGet_remove_empty_of_null (k : String) :
    ∀ ps, (ps.map Prod.fst).Nodup → dictGet ps k = some Value.null →
      dictGet (remove_empty ps) k = none := by
  intro ps
  induction ps with
  | nil => intro _ hv; simp [dictGet] at hv
  | cons kv rest ih =>
    obtain ⟨k2, v2⟩ := kv
    intro hnd hv
    simp only [List.map_cons, List.nodup_cons] at hnd
    by_cases hk : k2 = k
    · rw [dictGet, if_pos hk] at hv
      injection hv with hv
      subst hv
      rw [remove_empty, if_pos rfl]
      have hrest : hasKey rest k = false := by
        simp [hasKey, dictGet_eq_none_of_not_mem rest k (hk ▸ hnd.1)]
      have h2 := hasKey_remove_empty_mono rest k hrest
      simp only [hasKey] at h2
      cases hc : dictGet (remove_empty rest) k with
      | none => rfl
      | some v => rw [hc] at h2; simp at h2
    · rw [dictGet, if_neg hk] at hv
      by_cases h2 : v2 = Value.null
      · rw [remove_empty, if_pos h2]
        exact ih hnd.2 hv
      · rw [remove_empty, if_neg h2, dictGet, if_neg hk]
        exact ih hnd.2 hv

/-! ## Lemmas about the parameter pipeline `process_params` -/

theorem process_params_eq (ps : List (String × Value)) :
    process_params ps = remove_empty
      (match dictGet (setdefault ps "format" (Value.str "json")) "id" with
      | some v => setKey (setdefault ps "format" (Value.str "json")) "id"
          (clean_identifier v)
      | none => setdefault ps "format" (Value.str "json")) := rfl

theorem dictGet_setdefault_of_some (ps : List (String × Value)) (k k0 : String)
    (v : Value) (v0 : Value) (h : dictGet ps k = some v) :
    dictGet (setdefault ps k0 v0) k = some v := by
  unfold setdefault
  split
  · exact h
  · rw [dictGet_append_left ps [(k0, v0)] k (by simp [h])]
    exact h

theorem hasKey_setdefault_other (ps : List (String × Value)) (k k0 : String)
    (v0 : Value) (h : k ≠ k0) : hasKey (setdefault ps k0 v0) k = hasKey ps k := by
  unfold setdefault
  split
  · rfl
  · cases hc : dictGet ps k with
    | some v => simp [hasKey, dictGet_append_left ps [(k0, v0)] k (by simp [hc]), hc]
    | none =>
      rw [hasKey, dictGet_append_right ps [(k0, v0)] k hc]
      have hne : ¬(k0 = k) := fun hh => h hh.symm
      simp [dictGet, hasKey, hc, hne]

theorem keys_setdefault_nodup (ps : List (String × Value)) (k0 : String)
    (v0 : Value) (h : (ps.map Prod.fst).Nodup) :
    ((setdefault ps k0 v0).map Prod.fst).Nodup := by
  unfold setdefault
  split
  · exact h
  · next hk =>
    have : k0 ∉ ps.map Prod.fst :=
      not_mem_keys_of_not_hasKey ps k0 (by simpa using hk)
    simp [List.nodup_append, h, this]

theorem nodup_keys_p2 (ps : List (String × Value))
    (h : (ps.map Prod.fst).Nodup) :
    (((match dictGet (setdefault ps "format" (Value.str "json")) "id" with
      | some v => setKey (setdefault ps "format" (Value.str "json")) "id"
          (clean_identifier v)
      | none => setdefault ps "format" (Value.str "json")).map Prod.fst)).Nodup := by
  have h1 := keys_setdefault_nodup ps "format" (Value.str "json") h
  cases hid : dictGet (setdefault ps "format" (Value.str "json")) "id" with
  | none => simpa [hid] using h1
  | some v => simpa [hid, keys_setKey] using h1

theorem hasKey_process_of_null (ps : List (String × Value)) (k : String)
    (hnd : (ps.map Prod.fst).Nodup) (h : dictGet ps k = some Value.null) :
    hasKey (process_params ps) k = false := by
  unfold process_params
  have hv1 : dictGet (setdefault ps "format" (Value.str "json")) k = some Value.null :=
    dictGet_setdefault_of_some ps k "format" Value.null (Value.str "json") h
  have hnd2 := nodup_keys_p2 ps hnd
  cases hid : dictGet (setdefault ps "format" (Value.str "json")) "id" with
  | none =>
    rw [hid] at hnd2
    simp only [hid, hasKey,
      dictGet_remove_empty_of_null k _ (keys_setdefault_nodup ps _ _ hnd) hv1,
      Option.isSome_none]
  | some v0 =>
    rw [hid] at hnd2
    simp only [hid]
    by_cases hk : k = "id"
    · subst hk
      rw [hv1] at hid
      injection hid with hid
      subst hid
      have h2 : dictGet (setKey (setdefault ps "format" (Value.str "json")) "id"
          (clean_identifier Value.null)) "id" = some Value.null := by
        rw [dictGet_setKey_self, hv1]
        rfl
      simp [hasKey, dictGet_remove_empty_of_null _ _ hnd2 h2]
    · have h2 : dictGet (setKey (setdefault ps "format" (Value.str "json")) "id"
          (clean_identifier v0)) k = some Value.null := by
        rw [dictGet_setKey_other _ _ _ _ hk]
        exact hv1
      simp [hasKey, dictGet_remove_empty_of_null _ _ hnd2 h2]

theorem dictGet_process_of_empty_str (ps : List (String × Value)) (k : String)
    (h : dictGet ps k = some (Value.str "")) :
    dictGet (process_params ps) k = some (Value.str "") := by
  unfold process_params
  have hv1 : dictGet (setdefault ps "format" (Value.str "json")) k
      = some (Value.str "") :=
    dictGet_setdefault_of_some ps k "format" _ (Value.str "json") h
  cases hid : dictGet (setdefault ps "format" (Value.str "json")) "id" with
  | none =>
    simp only [hid]
    exact dictGet_remove_empty_of_ne_null k _ (by simp) _ hv1
  | some v0 =>
    simp only [hid]
    by_cases hk : k = "id"
    · subst hk
      rw [hv1] at hid
      injection hid with hid
      subst hid
      have h2 : dictGet (setKey (setdefault ps "format" (Value.str "json")) "id"
          (clean_identifier (Value.str ""))) "id" = some (Value.str "") := by
        rw [dictGet_setKey_self, hv1]
        rfl
      exact dictGet_remove_empty_of_ne_null _ _ (by simp) _ h2
    · have h2 : dictGet (setKey (setdefault ps "format" (Value.str "json")) "id"
          (clean_identifier v0)) k = some (Value.str "") := by
        rw [dictGet_setKey_other _ _ _ _ hk]
        exact hv1
      exact dictGet_remove_empty_of_ne_null _ _ (by simp) _ h2

theorem hasKey_process_of_not (ps : List (String × Value)) (k : String)
    (h : hasKey ps k = false) (hf : k ≠ "format") :
    hasKey (process_params ps) k = false := by
  unfold process_params
  have h1 : hasKey (setdefault ps "format" (Value.str "json")) k = false := by
    rw [hasKey_setdefault_other ps k "format" _ hf]
    exact h
  cases hid : dictGet (setdefault ps "format" (Value.str "json")) "id" with
  | none =>
    simp only [hid]
    exact hasKey_remove_empty_mono _ k h1
  | some v0 =>
    simp only [hid]
    apply hasKey_remove_empty_mono
    by_cases hk : k = "id"
    · subst hk
      simp [hasKey, hid] at h1
    · simp only [hasKey, dictGet_setKey_other _ _ _ _ hk]
      exact h1

theorem process_params_no_null (ps : List (String × Value)) :
    ∀ e ∈ process_params ps, e.2 ≠ Value.null := by
  unfold process_params
  cases hid : dictGet (setdefault ps "format" (Value.str "json")) "id" with
  | none => simp only [hid]; exact remove_empty_no_null _
  | some v0 => simp only [hid]; exact remove_empty_no_null _

theorem process_params_id_is_str (ps : List (String × Value)) (v : Value)
    (h : dictGet (process_params ps) "id" = some v) : ∃ s, v = Value.str s := by
  rw [process_params_eq] at h
  cases hid : dictGet (setdefault ps "format" (Value.str "json")) "id" with
  | none =>
    simp only [hid] at h
    have hmem := (mem_remove_empty _ _ (mem_of_dictGet _ _ _ h)).1
    have := hasKey_of_mem _ _ _ hmem
    simp [hasKey, hid] at this
  | some v0 =>
    simp only [hid] at h
    have hmem := mem_remove_empty _ _ (mem_of_dictGet _ _ _ h)
    rcases mem_setKey _ _ _ _ hmem.1 with h1 | h2
    · have hv : v = clean_identifier v0 := h1.2
      cases v0 with
      | null =>
        rw [hv] at hmem
        exact absurd rfl hmem.2
      | str s => exact ⟨s, hv⟩
      | lst l => exact ⟨String.intercalate "%2F" l, hv⟩
    · exact absurd rfl h2.2

theorem process_params_id_const (ps : List (String × Value))
    (e1 e2 : String × Value) (h1 : e1 ∈ process_params ps)
    (h2 : e2 ∈ process_params ps) (hk1 : e1.1 = "id") (hk2 : e2.1 = "id") :
    e1.2 = e2.2 := by
  rw [process_params_eq] at h1 h2
  cases hid : dictGet (setdefault ps "format" (Value.str "json")) "id" with
  | none =>
    simp only [hid] at h1
    have hmem := (mem_remove_empty _ _ h1).1
    obtain ⟨ka, va⟩ := e1
    simp only at hk1
    subst hk1
    have := hasKey_of_mem _ _ va hmem
    simp [hasKey, hid] at this
  | some v0 =>
    simp only [hid] at h1 h2
    rcases mem_setKey _ _ _ _ (mem_remove_empty _ _ h1).1 with ha | hb
    · rcases mem_setKey _ _ _ _ (mem_remove_empty _ _ h2).1 with hc | hd
      · rw [ha.2, hc.2]
      · exact absurd hk2 hd.2
    · exact absurd hk1 hb.2

theorem process_params_idem (ps : List (String × Value))
    (hF : hasKey (process_params ps) "format" = true) :
    process_params (process_params ps) = process_params ps := by
  have hA := process_params_no_null ps
  have h1 : setdefault (process_params ps) "format" (Value.str "json")
      = process_params ps := by
    rw [setdefault, if_pos hF]
  rw [process_params_eq (process_params ps), h1]
  cases hid : dictGet (process_params ps) "id" with
  | none =>
    simp only [hid]
    exact remove_empty_eq_self _ hA
  | some v =>
    simp only [hid]
    obtain ⟨s, hs⟩ := process_params_id_is_str ps v hid
    subst hs
    have hclean : clean_identifier (Value.str s) = Value.str s := rfl
    rw [hclean]
    have hset : setKey (process_params ps) "id" (Value.str s)
        = process_params ps := by
      apply setKey_eq_self
      intro e he hek
      exact process_params_id_const ps e ("id", Value.str s) he
        (mem_of_dictGet _ _ _ hid) hek rfl
    rw [hset]
    exact remove_empty_eq_self _ hA

theorem redirect_host_format (params : List (String × Value)) (content : Json)
    (host : String) (h : redirect_host params content = Except.ok host) :
    hasKey params "format" = true := by
  unfold redirect_host at h
  cases hf : dictGet params "format" with
  | none => rw [hf] at h; exact absurd h (by simp)
  | some fmt => simp [hasKey, hf]

/-! ## Lemmas about the `//` split used for subdomain extraction -/

theorem splitDD_append (host : List Char) :
    ∀ scheme : List Char, splitDD scheme = none → scheme.getLast? ≠ some '/' →
      splitDD (scheme ++ '/' :: '/' :: host) = some (scheme, host) := by
  intro scheme
  induction scheme with
  | nil =>
    intro _ _
    simp [splitDD]
  | cons c cs ih =>
    intro h0 hlast
    by_cases hc : c = '/' ∧ cs.head? = some '/'
    · rw [splitDD, if_pos hc] at h0
      exact absurd h0 (by simp)
    · rw [splitDD, if_neg hc] at h0
      have hcs : splitDD cs = none := by
        cases hs : splitDD cs with
        | none => rfl
        | some pr =>
          rw [hs] at h0
          exact absurd h0 (by simp)
      have hcond : ¬(c = '/' ∧ (cs ++ '/' :: '/' :: host).head? = some '/') := by
        rintro ⟨hc1, hc2⟩
        cases cs with
        | nil =>
          simp only [List.getLast?_singleton] at hlast
          exact hlast (by rw [hc1])
        | cons c2 cs2 =>
          simp only [List.cons_append, List.head?_cons, Option.some.injEq] at hc2
          exact hc ⟨hc1, by simp [hc2]⟩
      have hlast2 : cs.getLast? ≠ some '/' := by
        cases cs with
        | nil => simp
        | cons c2 cs2 =>
          rw [List.getLast?_cons_cons] at hlast
          exact hlast
      rw [List.cons_append, splitDD, if_neg hcond, ih hcs hlast2]

theorem splitDDIndex1_eq (s : String) (scheme host : List Char)
    (hs : s.data = scheme ++ '/' :: '/' :: host)
    (h1 : splitDD scheme = none) (h2 : scheme.getLast? ≠ some '/')
    (h3 : splitDD host = none) :
    splitDDIndex1 s = some (String.mk host) := by
  unfold splitDDIndex1
  rw [hs, splitDD_append host scheme h1 h2]
  simp only [h3]

theorem extract_subdomain_eq (content c : Json) (s : String)
    (hc : jsonGet content "content" = some c)
    (hsd : jsonGet c "subdomain" = some (Json.str s))
    (scheme host : List Char) (hs : s.data = scheme ++ '/' :: '/' :: host)
    (h1 : splitDD scheme = none) (h2 : scheme.getLast? ≠ some '/')
    (h3 : splitDD host = none) :
    extract_subdomain content = Except.ok (String.mk host) := by
  unfold extract_subdomain
  simp only [hc, hsd, splitDDIndex1_eq s scheme host hs h1 h2 h3]

/-! ## Invariants of `make_request` -/

theorem hasKey_not_isEmpty (ps : List (String × Value)) (k : String)
    (h : hasKey ps k = true) : ps.isEmpty = false := by
  cases ps with
  | nil => simp [hasKey, dictGet] at h
  | cons kv rest => rfl

theorem make_request_finalParams (url : String) (base_uri : Option String)
    (auth : Nat) (method : String) (silo : Bool) (body : String)
    (recognized : List String) :
    ∀ (transport : List TOutcome) (self : Client) (params0 : List (String × Value)),
      (make_request url base_uri auth method silo body recognized self params0
        transport).finalParams
        = if params0.isEmpty then params0 else process_params params0 := by
  intro transport
  induction transport with
  | nil =>
    intro self params0
    rw [make_request_nil]
    split
    · rfl
    · split
      · rfl
      · rfl
  | cons out rest ih =>
    intro self params0
    cases out with
    | success resp =>
      rw [make_request_success]
      split
      · rfl
      · split
        · rfl
        · rfl
    | httpError resp =>
      rw [make_request_httpError]
      split
      · rfl
      · split
        · split
          · cases hR : redirect_host (process_params params0) resp.content with
            | error m => simp only [hR]
            | ok host =>
              simp only [hR]
              by_cases he : params0.isEmpty = true
              · rw [if_pos he, if_pos he]
              · rw [if_neg he, if_neg he, ih]
                have hF := redirect_host_format _ _ _ hR
                have hne : (process_params params0).isEmpty = false :=
                  hasKey_not_isEmpty _ _ hF
                rw [if_neg (by simp [hne])]
                exact process_params_idem params0 hF
          · rfl
        · rfl

theorem make_request_no_token_error (url : String) (base_uri : Option String)
    (auth : Nat) (method : String) (silo : Bool) (body : String)
    (recognized : List String) (hA : auth ≠ REQUIRED) :
    ∀ (transport : List TOutcome) (self : Client) (params0 : List (String × Value)),
      (make_request url base_uri auth method silo body recognized self params0
        transport).result ≠ ReqResult.apiError "Token and Token secret must be set." := by
  intro transport
  induction transport with
  | nil =>
    intro self params0
    rw [make_request_nil, if_neg (fun hh => hA hh.1)]
    split
    · simp
    · simp
  | cons out rest ih =>
    intro self params0
    cases out with
    | success resp =>
      rw [make_request_success, if_neg (fun hh => hA hh.1)]
      split
      · simp
      · simp
    | httpError resp =>
      rw [make_request_httpError, if_neg (fun hh => hA hh.1)]
      split
      · split
        · cases hR : redirect_host (process_params params0) resp.content with
          | error m => simp [hR]
          | ok host =>
            simp only [hR]
            exact ih _ _
        · simp
      · simp

theorem make_request_issued_head (url : String) (base_uri : Option String)
    (auth : Nat) (method : String) (silo : Bool) (body : String)
    (recognized : List String) (transport : List TOutcome) (self : Client)
    (params0 : List (String × Value)) :
    (make_request url base_uri auth method silo body recognized self params0
        transport).issued.head? =
      if auth = REQUIRED ∧ (self.token = none ∨ self.token_secret = none) then none
      else if recognized.contains (pyLower method) then
        some (build_req self url base_uri (process_params params0) method silo body)
      else none := by
  cases transport with
  | nil =>
    rw [make_request_nil]
    split
    · rfl
    · split
      · rfl
      · rfl
  | cons out rest =>
    cases out with
    | success resp =>
      rw [make_request_success]
      split
      · rfl
      · split
        · rfl
        · rfl
    | httpError resp =>
      rw [make_request_httpError]
      split
      · rfl
      · split
        · split
          · cases hR : redirect_host (process_params params0) resp.content with
            | error m => simp [hR]
            | ok host => simp [hR]
          · rfl
        · rfl

theorem make_request_normalized_all (url : String) (base_uri : Option String)
    (auth : Nat) (method : String) (silo : Bool) (body : String)
    (recognized : List String) :
    ∀ (transport : List TOutcome) (self : Client) (params0 : List (String × Value)),
      ((make_request url base_uri auth method silo body recognized self params0
          transport).issued.all fun r =>
        r.normalized_url == "http://" ++ DOMAIN ++ (pyOr base_uri self.URI ++ url)) = true := by
  intro transport
  induction transport with
  | nil =>
    intro self params0
    rw [make_request_nil]
    split
    · rfl
    · split
      · simp [build_req]
      · rfl
  | cons out rest ih =>
    intro self params0
    cases out with
    | success resp =>
      rw [make_request_success]
      split
      · rfl
      · split
        · simp [build_req]
        · rfl
    | httpError resp =>
      rw [make_request_httpError]
      split
      · rfl
      · split
        · split
          · cases hR : redirect_host (process_params params0) resp.content with
            | error m => simp [hR, build_req]
            | ok host =>
              simp only [hR, List.all_cons, Bool.and_eq_true]
              constructor
              · simp [build_req]
              · exact ih { self with subdomain := host } (process_params params0)
          · simp [build_req]
        · rfl

theorem make_request_issued_params (url : String) (base_uri : Option String)
    (auth : Nat) (method : String) (silo : Bool) (body : String)
    (recognized : List String) (k : String) :
    ∀ (transport : List TOutcome) (self : Client) (params0 : List (String × Value)),
      hasKey (process_params params0) k = false →
      ((make_request url base_uri auth method silo body recognized self params0
          transport).issued.all fun r => !(hasKey r.parameters k)) = true := by
  intro transport
  induction transport with
  | nil =>
    intro self params0 hk
    rw [make_request_nil]
    split
    · rfl
    · split
      · simp [build_req, hk]
      · rfl
  | cons out rest ih =>
    intro self params0 hk
    cases out with
    | success resp =>
      rw [make_request_success]
      split
      · rfl
      · split
        · simp [build_req, hk]
        · rfl
    | httpError resp =>
      rw [make_request_httpError]
      split
      · rfl
      · split
        · split
          · cases hR : redirect_host (process_params params0) resp.content with
            | error m => simp [hR, build_req, hk]
            | ok host =>
              simp only [hR, List.all_cons, Bool.and_eq_true]
              constructor
              · simp [build_req, hk]
              · by_cases hf : k = "format"
                · subst hf
                  rw [redirect_host_format _ _ _ hR] at hk
                  exact absurd hk (by simp)
                · exact ih { self with subdomain := host } (process_params params0)
                    (hasKey_process_of_not _ _ hk hf)
          · simp [build_req, hk]
        · rfl

theorem make_request_state_frame (url : String) (base_uri : Option String)
    (auth : Nat) (method : String) (silo : Bool) (body : String)
    (recognized : List String) :
    ∀ (transport : List TOutcome) (self : Client) (params0 : List (String × Value)),
      ((make_request url base_uri auth method silo body recognized self params0
          transport).state.key = self.key
        ∧ (make_request url base_uri auth method silo body recognized self params0
          transport).state.secret = self.secret
        ∧ (make_request url base_uri auth method silo body recognized self params0
          transport).state.token = self.token
        ∧ (make_request url base_uri auth method silo body recognized self params0
          transport).state.token_secret = self.token_secret
        ∧ (make_request url base_uri auth method silo body recognized self params0
          transport).state.URI = self.URI)
      ∧ ((∀ o ∈ transport, isRedirectErr o = false) →
        (make_request url base_uri auth method silo body recognized self params0
          transport).state = self) := by
  intro transport
  induction transport with
  | nil =>
    intro self params0
    rw [make_request_nil]
    refine ⟨?_, fun _ => ?_⟩
    · split
      · exact ⟨rfl, rfl, rfl, rfl, rfl⟩
      · split
        · exact ⟨rfl, rfl, rfl, rfl, rfl⟩
        · exact ⟨rfl, rfl, rfl, rfl, rfl⟩
    · split
      · rfl
      · split
        · rfl
        · rfl
  | cons out rest ih =>
    intro self params0
    cases out with
    | success resp =>
      rw [make_request_success]
      refine ⟨?_, fun _ => ?_⟩
      · split
        · exact ⟨rfl, rfl, rfl, rfl, rfl⟩
        · split
          · exact ⟨rfl, rfl, rfl, rfl, rfl⟩
          · exact ⟨rfl, rfl, rfl, rfl, rfl⟩
      · split
        · rfl
        · split
          · rfl
          · rfl
    | httpError resp =>
      rw [make_request_httpError]
      constructor
      · split
        · exact ⟨rfl, rfl, rfl, rfl, rfl⟩
        · split
          · split
            · cases hR : redirect_host (process_params params0) resp.content with
              | error m => simp [hR]
              | ok host =>
                simp only [hR]
                exact (ih { self with subdomain := host } (process_params params0)).1
            · exact ⟨rfl, rfl, rfl, rfl, rfl⟩
          · exact ⟨rfl, rfl, rfl, rfl, rfl⟩
      · intro hno
        split
        · rfl
        · split
          · split
            · next hS =>
              have := hno (TOutcome.httpError resp) (List.mem_cons_self _ _)
              rw [isRedirectErr] at this
              rw [hS] at this
              simp at this
            · rfl
          · rfl

/-! ## Concrete fixtures for witnesses and counterexamples -/

/-- A client constructed without a token pair (as `Album(key, secret)` would),
using the `Album` subclass URI. -/
def anon_client : Client :=
  Base_init "consumer-key" "consumer-secret" none none none "/album/!"

/-- A plain 200 response outcome. -/
def ok200 : TOutcome := TOutcome.success ⟨200, Json.null⟩

/-- The 301 body of the specification example:
`{"content": {"subdomain": <h>}}`. -/
def redirect_body (h : String) : Json :=
  Json.obj [("content", Json.obj [("subdomain", Json.str h)])]

/-- An `HTTPError` outcome with status 301 and a redirect body. -/
def redirect301 (h : String) : TOutcome :=
  TOutcome.httpError ⟨301, redirect_body h⟩

/-! ## Claims -/

/-- Claim C2: for every `make_request` call, the URL used as the signature
base string (the `normalized_url` passed to HMAC-SHA1 signing) is always
`http://` + the canonical domain + the composed path, for every dispatched
request and regardless of the `silo` flag; consequently two calls with
identical path and params but `silo = true` versus `silo = false` produce
identical signature-base inputs for their (first) dispatched request. -/
theorem C2_theorem (url : String) (base_uri : Option String) (auth : Nat)
    (method : String) (body : String) (recognized : List String) :
    (∀ (silo : Bool) (transport : List TOutcome) (self : Client)
        (params0 : List (String × Value)),
      ((make_request url base_uri auth method silo body recognized self params0
          transport).issued.all fun r =>
        r.normalized_url == "http://" ++ DOMAIN ++ (pyOr base_uri self.URI ++ url)) = true)
    ∧ ∀ (self : Client) (params0 : List (String × Value)) (t1 t2 : List TOutcome),
      ((make_request url base_uri auth method true body recognized self params0
          t1).issued.head?).map signature_base_inputs
        = ((make_request url base_uri auth method false body recognized self params0
          t2).issued.head?).map signature_base_inputs := by
  constructor
  · intro silo transport self params0
    exact make_request_normalized_all url base_uri auth method silo body recognized
      transport self params0
  · intro self params0 t1 t2
    rw [make_request_issued_head, make_request_issued_head]
    split
    · rfl
    · split
      · simp [build_req, signature_base_inputs]
      · rfl

/-- Claim C4: with `auth = REQUIRED` and no token pair, the call fails with
`PhotobucketAPIError("Token and Token secret must be set.")` before any
network call; with `auth = NOT_REQUIRED` or `OPTIONAL` the missing token
pair is tolerated: that error is never raised and (for a recognized
method) a request is built and dispatched. -/
theorem C4_theorem (url : String) (base_uri : Option String) (method : String)
    (silo : Bool) (body : String) (recognized : List String) (self : Client)
    (params0 : List (String × Value)) (transport : List TOutcome)
    (hTok : self.token = none ∨ self.token_secret = none) :
    ((make_request url base_uri REQUIRED method silo body recognized self params0
        transport).result = ReqResult.apiError "Token and Token secret must be set."
      ∧ (make_request url base_uri REQUIRED method silo body recognized self params0
        transport).issued = [])
    ∧ ∀ auth2 : Nat, auth2 = NOT_REQUIRED ∨ auth2 = OPTIONAL →
        (make_request url base_uri auth2 method silo body recognized self params0
          transport).result ≠ ReqResult.apiError "Token and Token secret must be set."
        ∧ (recognized.contains (pyLower method) = true →
          (make_request url base_uri auth2 method silo body recognized self params0
            transport).issued ≠ []) := by
  constructor
  · cases transport with
    | nil =>
      rw [make_request_nil, if_pos ⟨rfl, hTok⟩]
      exact ⟨rfl, rfl⟩
    | cons out rest =>
      cases out with
      | success resp =>
        rw [make_request_success, if_pos ⟨rfl, hTok⟩]
        exact ⟨rfl, rfl⟩
      | httpError resp =>
        rw [make_request_httpError, if_pos ⟨rfl, hTok⟩]
        exact ⟨rfl, rfl⟩
  · intro auth2 hauth
    have hne : auth2 ≠ REQUIRED := by
      rcases hauth with h | h <;> subst h <;> decide
    constructor
    · exact make_request_no_token_error url base_uri auth2 method silo body
        recognized hne transport self params0
    · intro hM
      have hh := make_request_issued_head url base_uri auth2 method silo body
        recognized transport self params0
      rw [if_neg (fun hc => hne hc.1), if_pos hM] at hh
      intro hemp
      rw [hemp] at hh
      simp at hh

/-- Claim C4 witness: a tokenless client with `auth = REQUIRED` gets the
configuration error; the same client with `auth = NOT_REQUIRED` dispatches
a request. -/
theorem C4_witness :
    (make_request "x" none REQUIRED "GET" false "" requests_methods anon_client
        [] []).result = ReqResult.apiError "Token and Token secret must be set."
    ∧ (make_request "x" none NOT_REQUIRED "GET" false "" requests_methods
        anon_client [] []).issued ≠ [] := by
  refine ⟨( C4_theorem "x" none "GET" false "" requests_methods anon_client [] []
    (Or.inl rfl)).1.1, ?_⟩
  exact (( C4_theorem "x" none "GET" false "" requests_methods anon_client [] []
    (Or.inl rfl)).2 NOT_REQUIRED (Or.inl rfl)).2 (by decide)

/-- Claim C5: a method string that is not a request-method attribute of the
transport makes the call fail with a `PhotobucketAPIError` (a usage error,
not a network error) and zero network calls are performed. -/
theorem C5_theorem (url : String) (base_uri : Option String) (auth : Nat)
    (method : String) (silo : Bool) (body : String) (recognized : List String)
    (self : Client) (params0 : List (String × Value)) (transport : List TOutcome)
    (hM : recognized.contains (pyLower method) = false) :
    (make_request url base_uri auth method silo body recognized self params0
        transport).result.isApiError = true
    ∧ (make_request url base_uri auth method silo body recognized self params0
        transport).issued = [] := by
  have hM2 : ¬(recognized.contains (pyLower method) = true) := by
    intro hc
    rw [hc] at hM
    exact absurd hM (by simp)
  cases transport with
  | nil =>
    rw [make_request_nil]
    by_cases hA : auth = REQUIRED ∧ (self.token = none ∨ self.token_secret = none)
    · rw [if_pos hA]
      exact ⟨rfl, rfl⟩
    · rw [if_neg hA, if_neg hM2]
      exact ⟨rfl, rfl⟩
  | cons out rest =>
    cases out with
    | success resp =>
      rw [make_request_success]
      by_cases hA : auth = REQUIRED ∧ (self.token = none ∨ self.token_secret = none)
      · rw [if_pos hA]
        exact ⟨rfl, rfl⟩
      · rw [if_neg hA, if_neg hM2]
        exact ⟨rfl, rfl⟩
    | httpError resp =>
      rw [make_request_httpError]
      by_cases hA : auth = REQUIRED ∧ (self.token = none ∨ self.token_secret = none)
      · rw [if_pos hA]
        exact ⟨rfl, rfl⟩
      · rw [if_neg hA, if_neg hM2]
        exact ⟨rfl, rfl⟩

/-- Claim C5 witness: `"TRACE"` is not a request method of the transport;
the call raises the usage error and issues no request, even though the
transport would have answered. -/
theorem C5_witness :
    (make_request "x" none NOT_REQUIRED "TRACE" false "" requests_methods
        anon_client [] [ok200]).result.isApiError = true
    ∧ (make_request "x" none NOT_REQUIRED "TRACE" false "" requests_methods
        anon_client [] [ok200]).issued = [] :=
  C5_theorem "x" none NOT_REQUIRED "TRACE" false "" requests_methods
    anon_client [] [ok200] (by decide)

/-- Claim C8: an `HTTPError` whose status code is not 301 makes the call
raise a `PhotobucketError` carrying the original failed response, with no
retry (exactly one request was dispatched). -/
theorem C8_theorem (url : String) (base_uri : Option String) (auth : Nat)
    (method : String) (silo : Bool) (body : String) (recognized : List String)
    (self : Client) (params0 : List (String × Value)) (resp : HttpResponse)
    (rest : List TOutcome)
    (hA : ¬(auth = REQUIRED ∧ (self.token = none ∨ self.token_secret = none)))
    (hM : recognized.contains (pyLower method) = true)
    (hS : resp.status_code ≠ REDIRECT) :
    (make_request url base_uri auth method silo body recognized self params0
        (TOutcome.httpError resp :: rest)).result = ReqResult.pbError resp
    ∧ (make_request url base_uri auth method silo body recognized self params0
        (TOutcome.httpError resp :: rest)).issued.length = 1 := by
  rw [make_request_httpError, if_neg hA, if_pos hM, if_neg hS]
  exact ⟨rfl, rfl⟩

/-- Claim C8 witness: a 404 error is wrapped as `PhotobucketError` with the
response attached and exactly one request was dispatched. -/
theorem C8_witness :
    (make_request "x" none NOT_REQUIRED "GET" false "" requests_methods
        anon_client [] [TOutcome.httpError ⟨404, Json.null⟩]).result
      = ReqResult.pbError ⟨404, Json.null⟩
    ∧ (make_request "x" none NOT_REQUIRED "GET" false "" requests_methods
        anon_client [] [TOutcome.httpError ⟨404, Json.null⟩]).issued.length = 1 :=
  C8_theorem "x" none NOT_REQUIRED "GET" false "" requests_methods anon_client []
    ⟨404, Json.null⟩ [] (by decide) (by decide) (by decide)

/-- Claim C6: keys whose value is absent (`None`) are removed by the
parameter pipeline, so the parameter set of every dispatched (and signed)
request contains no such key; keys mapped to an empty string survive
unchanged (absent is distinct from empty string). -/
theorem C6_theorem (params0 : List (String × Value))
    (hN : (params0.map Prod.fst).Nodup) (k : String)
    (hk : dictGet params0 k = some Value.null) :
    hasKey (process_params params0) k = false
    ∧ (∀ (url : String) (base_uri : Option String) (auth : Nat) (method : String)
        (silo : Bool) (body : String) (recognized : List String) (self : Client)
        (transport : List TOutcome),
        ((make_request url base_uri auth method silo body recognized self params0
            transport).issued.all fun r => !(hasKey r.parameters k)) = true)
    ∧ ∀ k2, dictGet params0 k2 = some (Value.str "") →
        dictGet (process_params params0) k2 = some (Value.str "") := by
  have h1 := hasKey_process_of_null params0 k hN hk
  refine ⟨h1, ?_, ?_⟩
  · intro url base_uri auth method silo body recognized self transport
    exact make_request_issued_params url base_uri auth method silo body recognized
      k transport self params0 h1
  · intro k2 hk2
    exact dictGet_process_of_empty_str params0 k2 hk2

/-- Claim C6 witness: `{"a": None, "b": ""}` — after processing, `a` is
gone while `b` still maps to the empty string, and the single dispatched
request's parameter set has no key `a`. -/
theorem C6_witness :
    hasKey (process_params [("a", Value.null), ("b", Value.str "")]) "a" = false
    ∧ dictGet (process_params [("a", Value.null), ("b", Value.str "")]) "b"
        = some (Value.str "")
    ∧ ((make_request "x" none NOT_REQUIRED "GET" false "" requests_methods
        anon_client [("a", Value.null), ("b", Value.str "")] [ok200]).issued.all
          fun r => !(hasKey r.parameters "a")) = true := by
  have h := C6_theorem [("a", Value.null), ("b", Value.str "")] (by decide) "a"
    (by decide)
  exact ⟨h.1, h.2.2 "b" (by decide),
    h.2.1 "x" none NOT_REQUIRED "GET" false "" requests_methods anon_client [ok200]⟩

/-- Claim C7: an `id` given as a list of path segments is joined with the
literal string `%2F` (`["a","b"]` gives `"a%2Fb"`), and the `id` entry of
the processed parameter set is never a list. -/
theorem C7_theorem :
    (∀ l, clean_identifier (Value.lst l) = Value.str (String.intercalate "%2F" l))
    ∧ clean_identifier (Value.lst ["a", "b"]) = Value.str "a%2Fb"
    ∧ ∀ (ps : List (String × Value)) (v : Value),
        dictGet (process_params ps) "id" = some v → ∀ l, v ≠ Value.lst l := by
  refine ⟨fun l => rfl, by decide, ?_⟩
  intro ps v h l
  obtain ⟨s, hs⟩ := process_params_id_is_str ps v h
  subst hs
  simp

/-- Claim C7 witness: the spec example `["a","b"]`, both through
`clean_identifier` and through the full pipeline. -/
theorem C7_witness :
    clean_identifier (Value.lst ["a", "b"]) = Value.str "a%2Fb"
    ∧ Value.str "a%2Fb" ≠ Value.lst ["a", "b"] := by
  refine ⟨C7_theorem.2.1, ?_⟩
  exact C7_theorem.2.2 [("id", Value.lst ["a", "b"])] (Value.str "a%2Fb")
    (by decide) ["a", "b"]

/-- Claim C9 counterexample: `make_request` mutates the caller-supplied
params dictionary, contradicting the claim: for `{"a": None,
"id": ["x","y"]}` the dictionary afterwards has a `format` entry added,
the `a` entry deleted and the `id` entry rewritten. -/
theorem C9_counterexample :
    (make_request "u" none NOT_REQUIRED "GET" false "" requests_methods
        anon_client [("a", Value.null), ("id", Value.lst ["x", "y"])]
        [ok200]).finalParams
      = [("id", Value.str "x%2Fy"), ("format", Value.str "json")]
    ∧ [("id", Value.str "x%2Fy"), ("format", Value.str "json")]
      ≠ [("a", Value.null), ("id", Value.lst ["x", "y"])] := by
  exact ⟨by decide, by decide⟩

/-- Claim C9 (amended): besides the 301-triggered subdomain mutation,
`make_request` also mutates a nonempty caller-supplied params dictionary
in place — defaulting `format`, rewriting `id`, and deleting `None`-valued
entries — leaving it equal to `process_params` of the original; an empty
caller mapping is falsy, so line 125 (`params = params or dict()`)
replaces it by a fresh dict and the caller's mapping stays unchanged.
Apart from these effects the call is a pure function of its inputs (it is
modelled by one). -/
theorem C9_theorem (url : String) (base_uri : Option String) (auth : Nat)
    (method : String) (silo : Bool) (body : String) (recognized : List String)
    (self : Client) (params0 : List (String × Value)) (transport : List TOutcome) :
    (make_request url base_uri auth method silo body recognized self params0
        transport).finalParams
      = if params0.isEmpty then params0 else process_params params0 :=
  make_request_finalParams url base_uri auth method silo body recognized
    transport self params0

/-- Claim C10: the credential fields `key`, `secret`, `token`,
`token_secret` are unchanged by every call and every outcome, and the
subdomain is reassigned only in the 301 branch: a transport trace with no
301 error leaves the whole instance state unchanged. -/
theorem C10_theorem (url : String) (base_uri : Option String) (auth : Nat)
    (method : String) (silo : Bool) (body : String) (recognized : List String)
    (self : Client) (params0 : List (String × Value)) (transport : List TOutcome) :
    ((make_request url base_uri auth method silo body recognized self params0
        transport).state.key = self.key
      ∧ (make_request url base_uri auth method silo body recognized self params0
        transport).state.secret = self.secret
      ∧ (make_request url base_uri auth method silo body recognized self params0
        transport).state.token = self.token
      ∧ (make_request url base_uri auth method silo body recognized self params0
        transport).state.token_secret = self.token_secret)
    ∧ ((∀ o ∈ transport, isRedirectErr o = false) →
      (make_request url base_uri auth method silo body recognized self params0
        transport).state = self) := by
  have h := make_request_state_frame url base_uri auth method silo body recognized
    transport self params0
  exact ⟨⟨h.1.1, h.1.2.1, h.1.2.2.1, h.1.2.2.2.1⟩, h.2⟩

/-- Claim C10 witness: a call answered by a 404 error keeps the instance
state — subdomain included — exactly as it was. -/
theorem C10_witness :
    (make_request "x" none NOT_REQUIRED "GET" false "" requests_methods
        anon_client [] [TOutcome.httpError ⟨404, Json.null⟩]).state = anon_client :=
  ( C10_theorem "x" none NOT_REQUIRED "GET" false "" requests_methods anon_client
    [] [TOutcome.httpError ⟨404, Json.null⟩]).2 (by decide)

/-- Claim C1 counterexample: with a transport answering 301 twice and then
200, the call dispatches three requests — the 301 answered to the retried
request was handled again (the stored subdomain ends at the second host)
and triggered a further retry, so the recursion depth is not 1 and the
retry is not performed exactly once. -/
theorem C1_counterexample :
    (make_request "x" none NOT_REQUIRED "GET" false "" requests_methods
        anon_client []
        [redirect301 "http://s1.host.com", redirect301 "http://s2.host.com",
          ok200]).issued.length = 3
    ∧ (make_request "x" none NOT_REQUIRED "GET" false "" requests_methods
        anon_client []
        [redirect301 "http://s1.host.com", redirect301 "http://s2.host.com",
          ok200]).state.subdomain = "s2.host.com" :=
  ⟨by decide, by decide⟩

/-- Claim C1 (amended): every HTTP 301 response with a well-formed body —
including one answered to a retried request — triggers redirect handling
and one more retry with identical arguments: the call behaves as the
recursive call on the remaining transport after the subdomain update, with
exactly one extra dispatched request; the recursion has no depth bound and
stops only when a non-301 outcome arrives. -/
theorem C1_theorem (url : String) (base_uri : Option String) (auth : Nat)
    (method : String) (silo : Bool) (body : String) (recognized : List String)
    (self : Client) (params0 : List (String × Value)) (resp : HttpResponse)
    (rest : List TOutcome) (host : String)
    (hA : ¬(auth = REQUIRED ∧ (self.token = none ∨ self.token_secret = none)))
    (hM : recognized.contains (pyLower method) = true)
    (hS : resp.status_code = REDIRECT)
    (hR : redirect_host (process_params params0) resp.content = Except.ok host) :
    (make_request url base_uri auth method silo body recognized self params0
        (TOutcome.httpError resp :: rest)).result
      = (make_request url base_uri auth method silo body recognized
        { self with subdomain := host } (process_params params0) rest).result
    ∧ (make_request url base_uri auth method silo body recognized self params0
        (TOutcome.httpError resp :: rest)).state
      = (make_request url base_uri auth method silo body recognized
        { self with subdomain := host } (process_params params0) rest).state
    ∧ (make_request url base_uri auth method silo body recognized self params0
        (TOutcome.httpError resp :: rest)).issued.length
      = (make_request url base_uri auth method silo body recognized
        { self with subdomain := host } (process_params params0) rest).issued.length
          + 1 := by
  rw [make_request_httpError, if_neg hA, if_pos hM, if_pos hS]
  simp [hR]

/-- Claim C1 witness: instantiating the amended statement on a concrete
single-301 trace. -/
theorem C1_witness :
    (make_request "x" none NOT_REQUIRED "GET" false "" requests_methods
        anon_client []
        (TOutcome.httpError ⟨301, redirect_body "http://s1.host.com"⟩
          :: [ok200])).issued.length
      = (make_request "x" none NOT_REQUIRED "GET" false "" requests_methods
          { anon_client with subdomain := "s1.host.com" } (process_params [])
          [ok200]).issued.length + 1 :=
  ( C1_theorem "x" none NOT_REQUIRED "GET" false "" requests_methods anon_client
    [] ⟨301, redirect_body "http://s1.host.com"⟩ [ok200] "s1.host.com"
    (by decide) (by decide) rfl rfl).2.2

/-- Claim C3 counterexample: a `silo = false` call that receives the spec's
301 body does store `s123.host.com` as the subdomain, but the reissued
request targets the canonical domain, not the stored subdomain, because
the retry reuses the original `silo` flag. -/
theorem C3_counterexample :
    (make_request "x" none NOT_REQUIRED "GET" false "" requests_methods
        anon_client [] [redirect301 "http://s123.host.com", ok200]).state.subdomain
      = "s123.host.com"
    ∧ ((make_request "x" none NOT_REQUIRED "GET" false "" requests_methods
        anon_client [] [redirect301 "http://s123.host.com", ok200]).issued.map
          OAuthReq.url)
      = ["http://api.photobucket.com/album/!x",
         "http://api.photobucket.com/album/!x"]
    ∧ ("http://api.photobucket.com/album/!x" : String)
      ≠ "http://s123.host.com/album/!x" :=
  ⟨by decide, by decide, by decide⟩

/-- Claim C3 (amended): on a 301 whose parsed body has
`content.subdomain = scheme ++ "//" ++ host` (no further `//` in either
part and the scheme not ending in `/`), the stored subdomain becomes
`host` — the substring after the first `//` — and the request is reissued
with the same `silo` flag: the retry targets the stored subdomain when
`silo = true` and the canonical domain when `silo = false`. -/
theorem C3_theorem (url : String) (base_uri : Option String) (auth : Nat)
    (method : String) (silo : Bool) (body : String) (recognized : List String)
    (self : Client) (params0 : List (String × Value)) (resp : HttpResponse)
    (out2 : TOutcome) (c : Json) (s : String) (scheme host : List Char)
    (hA : ¬(auth = REQUIRED ∧ (self.token = none ∨ self.token_secret = none)))
    (hM : recognized.contains (pyLower method) = true)
    (hS : resp.status_code = REDIRECT)
    (hF : dictGet (process_params params0) "format" = some (Value.str "json"))
    (hc : jsonGet resp.content "content" = some c)
    (hsd : jsonGet c "subdomain" = some (Json.str s))
    (hshape : s.data = scheme ++ '/' :: '/' :: host)
    (h1 : splitDD scheme = none) (h2 : scheme.getLast? ≠ some '/')
    (h3 : splitDD host = none)
    (hno : isRedirectErr out2 = false) :
    (make_request url base_uri auth method silo body recognized self params0
        [TOutcome.httpError resp, out2]).state.subdomain = String.mk host
    ∧ ((make_request url base_uri auth method silo body recognized self params0
        [TOutcome.httpError resp, out2]).issued.map OAuthReq.url)
      = [if silo then "http://" ++ self.subdomain ++ (pyOr base_uri self.URI ++ url)
          else "http://" ++ DOMAIN ++ (pyOr base_uri self.URI ++ url),
         if silo then "http://" ++ String.mk host ++ (pyOr base_uri self.URI ++ url)
          else "http://" ++ DOMAIN ++ (pyOr base_uri self.URI ++ url)] := by
  have hR : redirect_host (process_params params0) resp.content
      = Except.ok (String.mk host) := by
    unfold redirect_host
    simp only [hF]
    rw [if_pos trivial]
    exact extract_subdomain_eq resp.content c s hc hsd scheme host hshape h1 h2 h3
  rw [make_request_httpError, if_neg hA, if_pos hM, if_pos hS]
  simp only [hR]
  have hstate : (make_request url base_uri auth method silo body recognized
      { self with subdomain := String.mk host } (process_params params0)
      [out2]).state = { self with subdomain := String.mk host } := by
    refine (make_request_state_frame url base_uri auth method silo body recognized
      [out2] { self with subdomain := String.mk host } (process_params params0)).2 ?_
    intro o ho
    rw [List.mem_singleton] at ho
    subst ho
    exact hno
  have hissued : (make_request url base_uri auth method silo body recognized
      { self with subdomain := String.mk host } (process_params params0)
      [out2]).issued
      = [build_req { self with subdomain := String.mk host } url base_uri
          (process_params (process_params params0)) method silo body] := by
    cases out2 with
    | success resp2 =>
      rw [make_request_success, if_neg hA, if_pos hM]
    | httpError resp2 =>
      have hs2 : ¬(resp2.status_code = REDIRECT) := by
        rw [isRedirectErr] at hno
        simpa using hno
      rw [make_request_httpError, if_neg hA, if_pos hM, if_neg hs2]
  constructor
  · rw [hstate]
  · rw [hissued]
    simp [build_req]

/-- Claim C3 witness: a `silo = true` call receiving the spec's 301 body
(`http://s123.host.com`) stores `s123.host.com` and reissues against that
stored subdomain. -/
theorem C3_witness :
    (make_request "x" none NOT_REQUIRED "GET" true "" requests_methods
        anon_client [] [redirect301 "http://s123.host.com", ok200]).state.subdomain
      = "s123.host.com"
    ∧ ((make_request "x" none NOT_REQUIRED "GET" true "" requests_methods
        anon_client [] [redirect301 "http://s123.host.com", ok200]).issued.map
          OAuthReq.url)
      = ["http://api.photobucket.com/album/!x",
         "http://s123.host.com/album/!x"] := by
  have h := C3_theorem "x" none NOT_REQUIRED "GET" true "" requests_methods
    anon_client [] ⟨301, redirect_body "http://s123.host.com"⟩ ok200
    (Json.obj [("subdomain", Json.str "http://s123.host.com")])
    "http://s123.host.com" "http:".data "s123.host.com".data
    (by decide) (by decide) rfl rfl rfl rfl (by decide) (by decide) (by decide)
    (by decide) rfl
  exact ⟨h.1, h.2.trans (by decide)⟩
